import Mathlib

/-!
Shallow embedding of the configuration model of the `rx` repository
(`src/config.rs`, with helpers from `src/helper.rs` and `src/global.rs`).

Rust `HashMap<String, V>` is modelled as an association list
`List (String × V)`; `HashMap` operations (`get_mut`, `insert`, `remove`,
`contains_key`) are modelled by the corresponding association-list
operations below.  Mutating methods taking `&mut self` and returning
`Result<(), E>` are modelled as functions returning the pair of the
`Result` and the updated value, so that state changes on error paths are
observable.
-/

namespace Rx

/-- Embeds `enum CommandContext { Run, Test, Build, Bench, Script }`. -/
inductive CommandContext
  | Run
  | Test
  | Build
  | Bench
  | Script
deriving DecidableEq, Repr

/-- Embeds `enum CommandType { Cargo, Shell }` (Rust `Default` is `Shell`). -/
inductive CommandType
  | Cargo
  | Shell
deriving DecidableEq, Repr

/-- Modelled from the spec: `errors.rs` is not among the sources; §7 names the
mutation-level error kinds `ConfigKeyNotFound` (carrying the missed key) and
`InvalidPreCommand` (carrying a message), which are the two constructors used
by `config.rs`. -/
inductive ConfigError
  | ConfigKeyNotFound (key : String)
  | InvalidPreCommand (msg : String)
deriving DecidableEq, Repr

/-- Embeds `struct CommandDetails` (field order as in the source; `env` is a
`HashMap<String,String>`, modelled as an association list). -/
structure CommandDetails where
  command_type : CommandType
  command : Option String
  params : Option String
  env : Option (List (String × String))
  allow_multiple_instances : Option Bool
  working_directory : Option String
  pre_command : Option String
deriving DecidableEq, Repr

/-- Embeds `struct CommandConfig { default: String, configs: HashMap<String, CommandDetails> }`. -/
structure CommandConfig where
  default : String
  configs : List (String × CommandDetails)
deriving DecidableEq, Repr

/-- Embeds `struct Commands` with its five optional per-context slots. -/
structure Commands where
  run : Option CommandConfig
  test : Option CommandConfig
  build : Option CommandConfig
  bench : Option CommandConfig
  script : Option CommandConfig
deriving DecidableEq, Repr

/-- Embeds `struct Config { commands: Commands }`. -/
structure Config where
  commands : Commands
deriving DecidableEq, Repr

/-! ### Association-list model of `HashMap` operations -/

/-- `HashMap::get` / lookup: first value bound to `k`. -/
def alookup {α : Type} : List (String × α) → String → Option α
  | [], _ => none
  | (k', v) :: t, k => if k' = k then some v else alookup t k

/-- `HashMap::contains_key`. -/
def containsKey {α : Type} : List (String × α) → String → Bool
  | [], _ => false
  | (k', _) :: t, k => if k' = k then true else containsKey t k

/-- `HashMap::insert`: replace the binding of `k` if present, else add it. -/
def ainsert {α : Type} : List (String × α) → String → α → List (String × α)
  | [], k, v => [(k, v)]
  | (k', v') :: t, k, v =>
    if k' = k then (k, v) :: t else (k', v') :: ainsert t k v

/-- `HashMap::remove` (the returned old value is unused by the source). -/
def aremove {α : Type} : List (String × α) → String → List (String × α)
  | [], _ => []
  | (k', v) :: t, k =>
    if k' = k then aremove t k else (k', v) :: aremove t k

/-- In-place mutation through `HashMap::get_mut`: apply `f` to the value
bound to `k`, if any. -/
def aupdate {α : Type} : List (String × α) → String → (α → α) → List (String × α)
  | [], _, _ => []
  | (k', v) :: t, k, f =>
    if k' = k then (k, f v) :: t else (k', v) :: aupdate t k f

/-! ### `CommandConfig` methods -/

namespace CommandConfig

/-- Embeds `CommandConfig::default_command_details`. -/
def default_command_details (command : String) (command_type : CommandType) :
    CommandDetails :=
  { command_type := command_type
    command := some command
    params := some ""
    allow_multiple_instances := some false
    working_directory := some "${workspaceFolder}"
    pre_command := some ""
    env := some [] }

/-- Embeds `CommandConfig::update_command_details`: mutate the details bound
to `key` via `f`, or fail with `ConfigKeyNotFound(key)`. -/
def update_command_details (cfg : CommandConfig) (key : String)
    (f : CommandDetails → CommandDetails) :
    Except ConfigError Unit × CommandConfig :=
  match alookup cfg.configs key with
  | some _ => (Except.ok (), { cfg with configs := aupdate cfg.configs key f })
  | none => (Except.error (ConfigError.ConfigKeyNotFound key), cfg)

/-- Embeds `CommandConfig::update_command`. -/
def update_command (cfg : CommandConfig) (key command : String) :
    Except ConfigError Unit × CommandConfig :=
  update_command_details cfg key (fun d => { d with command := some command })

/-- Embeds `CommandConfig::update_allow_multiple_instances`. -/
def update_allow_multiple_instances (cfg : CommandConfig) (key : String)
    (allow : Bool) : Except ConfigError Unit × CommandConfig :=
  update_command_details cfg key
    (fun d => { d with allow_multiple_instances := some allow })

/-- Embeds `CommandConfig::update_working_directory`. -/
def update_working_directory (cfg : CommandConfig) (key cwd : String) :
    Except ConfigError Unit × CommandConfig :=
  update_command_details cfg key
    (fun d => { d with working_directory := some cwd })

/-- Embeds `CommandConfig::update_pre_command` with its three validation
branches, in source order: self-reference, empty-clears, existence. -/
def update_pre_command (cfg : CommandConfig) (key pre_command : String) :
    Except ConfigError Unit × CommandConfig :=
  if pre_command = key then
    (Except.error (ConfigError.InvalidPreCommand
      ("Cannot set pre_command to its own key: " ++ key)), cfg)
  else if pre_command = "" then
    update_command_details cfg key (fun d => { d with pre_command := none })
  else if containsKey cfg.configs pre_command = false then
    (Except.error (ConfigError.InvalidPreCommand
      ("pre_command '" ++ pre_command ++ "' does not exist as a command key")), cfg)
  else
    update_command_details cfg key
      (fun d => { d with pre_command := some pre_command })

/-- Embeds `CommandConfig::update_command_type`. -/
def update_command_type (cfg : CommandConfig) (key : String)
    (command_type : CommandType) : Except ConfigError Unit × CommandConfig :=
  update_command_details cfg key (fun d => { d with command_type := command_type })

/-- Embeds `CommandConfig::update_params`. -/
def update_params (cfg : CommandConfig) (config_key new_params : String) :
    Except ConfigError Unit × CommandConfig :=
  update_command_details cfg config_key
    (fun d => { d with params := some new_params })

/-- Embeds `CommandConfig::with_context`: seed a one-variant set for a
context name (the Rust `match` on the `&str` is an equality cascade). -/
def with_context (context : String) : CommandConfig :=
  let default_details :=
    if context = "run" then
      default_command_details "run --package ${packageName} --bin ${binaryName}"
        CommandType.Cargo
    else if context = "test" then default_command_details "test" CommandType.Cargo
    else if context = "build" then default_command_details "build" CommandType.Cargo
    else if context = "bench" then default_command_details "bench" CommandType.Cargo
    else default_command_details "" CommandType.Shell
  { default := "default", configs := [("default", default_details)] }

/-- Embeds `CommandConfig::update_config` (unconditional insert). -/
def update_config (cfg : CommandConfig) (key : String)
    (details : CommandDetails) : CommandConfig :=
  { cfg with configs := ainsert cfg.configs key details }

/-- Embeds `CommandConfig::remove_config`: remove `key`, and reset `default`
to the literal `"default"` when the removed key was the default. -/
def remove_config (cfg : CommandConfig) (key : String) : CommandConfig :=
  let configs' := aremove cfg.configs key
  if cfg.default = key then { default := "default", configs := configs' }
  else { cfg with configs := configs' }

end CommandConfig

/-- Embeds `impl Default for CommandConfig`: default pointer `"default"`, no
variants. -/
def defaultCommandConfig : CommandConfig :=
  { default := "default", configs := [] }

/-! ### `Commands` methods -/

/-- Projection of the per-context slot (the `match context` of the source). -/
def getSlot (cs : Commands) : CommandContext → Option CommandConfig
  | CommandContext.Run => cs.run
  | CommandContext.Test => cs.test
  | CommandContext.Build => cs.build
  | CommandContext.Bench => cs.bench
  | CommandContext.Script => cs.script

/-- Write the per-context slot (the `&mut` target of the source `match`). -/
def setSlot (cs : Commands) (ctx : CommandContext) (v : Option CommandConfig) :
    Commands :=
  match ctx with
  | CommandContext.Run => { cs with run := v }
  | CommandContext.Test => { cs with test := v }
  | CommandContext.Build => { cs with build := v }
  | CommandContext.Bench => { cs with bench := v }
  | CommandContext.Script => { cs with script := v }

namespace Commands

/-- Embeds `Commands::get_or_insert_command_config`: the Rust method returns
`&mut CommandConfig`; we return the (found or inserted) config together with
the updated `Commands`. -/
def get_or_insert_command_config (cs : Commands) (ctx : CommandContext) :
    CommandConfig × Commands :=
  match getSlot cs ctx with
  | some cfg => (cfg, cs)
  | none => (defaultCommandConfig, setSlot cs ctx (some defaultCommandConfig))

/-- Embeds `Commands::set_default_config`. -/
def set_default_config (cs : Commands) (ctx : CommandContext)
    (new_default_key : String) : Except ConfigError Unit × Commands :=
  match getSlot cs ctx with
  | some cfg =>
    if containsKey cfg.configs new_default_key then
      (Except.ok (), setSlot cs ctx (some { cfg with default := new_default_key }))
    else
      (Except.error (ConfigError.ConfigKeyNotFound new_default_key), cs)
  | none => (Except.error (ConfigError.ConfigKeyNotFound new_default_key), cs)

end Commands

/-- Embeds `impl Default for Commands`: seeded run/test/build/bench, empty
script slot. -/
def defaultCommands : Commands :=
  { run := some (CommandConfig.with_context "run")
    test := some (CommandConfig.with_context "test")
    build := some (CommandConfig.with_context "build")
    bench := some (CommandConfig.with_context "bench")
    script := none }

/-- Embeds `#[derive(Default)]` on `Config` (which delegates to
`Commands::default`). -/
def defaultConfig : Config :=
  { commands := defaultCommands }

/-! ### Persistence adapter

Modelled from the spec: the structure-to-text / text-to-structure collaborator
(`toml`) is external to the repository, and §6 allows "any structured text
format with the same shape".  We realise that contract by a concrete
executable codec over `List Char`: every decoder consumes a prefix and
returns the unconsumed tail. -/

/-- Unary encoding of a natural number, terminated by a marker. -/
def encNat : Nat → List Char
  | 0 => ['0']
  | n + 1 => '1' :: encNat n

/-- Decoder for `encNat`. -/
def decNat : List Char → Option (Nat × List Char)
  | [] => none
  | c :: r =>
    if c = '0' then some (0, r)
    else if c = '1' then
      match decNat r with
      | some (n, r') => some (n + 1, r')
      | none => none
    else none

/-- Encoding of a boolean. -/
def encBool : Bool → List Char
  | true => ['t']
  | false => ['f']

/-- Decoder for `encBool`. -/
def decBool : List Char → Option (Bool × List Char)
  | [] => none
  | c :: r =>
    if c = 't' then some (true, r)
    else if c = 'f' then some (false, r)
    else none

/-- Length-prefixed encoding of raw characters. -/
def encChars (s : List Char) : List Char :=
  encNat s.length ++ s

/-- Decoder for `encChars`. -/
def decChars (l : List Char) : Option (List Char × List Char) :=
  match decNat l with
  | some (n, r) => if n ≤ r.length then some (r.take n, r.drop n) else none
  | none => none

/-- Encoding of a string. -/
def encStr (s : String) : List Char :=
  encChars s.data

/-- Decoder for `encStr`. -/
def decStr (l : List Char) : Option (String × List Char) :=
  match decChars l with
  | some (cs, r) => some (String.mk cs, r)
  | none => none

/-- Encoding of an optional value. -/
def encOpt {α : Type} (f : α → List Char) : Option α → List Char
  | none => ['n']
  | some x => 'j' :: f x

/-- Decoder for `encOpt`. -/
def decOpt {α : Type} (g : List Char → Option (α × List Char)) :
    List Char → Option (Option α × List Char)
  | [] => none
  | c :: r =>
    if c = 'n' then some (none, r)
    else if c = 'j' then
      match g r with
      | some (x, r') => some (some x, r')
      | none => none
    else none

/-- Encoding of a pair. -/
def encPair {α β : Type} (f : α → List Char) (g : β → List Char)
    (p : α × β) : List Char :=
  f p.1 ++ g p.2

/-- Decoder for `encPair`. -/
def decPair {α β : Type} (f : List Char → Option (α × List Char))
    (g : List Char → Option (β × List Char)) (l : List Char) :
    Option ((α × β) × List Char) :=
  match f l with
  | some (a, r) =>
    match g r with
    | some (b, r') => some ((a, b), r')
    | none => none
  | none => none

/-- Encoding of a list: length prefix then the element encodings. -/
def encList {α : Type} (f : α → List Char) (l : List α) : List Char :=
  encNat l.length ++ (l.map f).flatten

/-- Count-driven decoding loop for `encList`. -/
def decListAux {α : Type} (g : List Char → Option (α × List Char)) :
    Nat → List Char → Option (List α × List Char)
  | 0, r => some ([], r)
  | n + 1, r =>
    match g r with
    | some (x, r') =>
      match decListAux g n r' with
      | some (xs, r'') => some (x :: xs, r'')
      | none => none
    | none => none

/-- Decoder for `encList`. -/
def decList {α : Type} (g : List Char → Option (α × List Char))
    (l : List Char) : Option (List α × List Char) :=
  match decNat l with
  | some (n, r) => decListAux g n r
  | none => none

/-- Encoding of a `CommandType`. -/
def encCommandType : CommandType → List Char
  | CommandType.Cargo => ['c']
  | CommandType.Shell => ['s']

/-- Decoder for `encCommandType`. -/
def decCommandType : List Char → Option (CommandType × List Char)
  | [] => none
  | c :: r =>
    if c = 'c' then some (CommandType.Cargo, r)
    else if c = 's' then some (CommandType.Shell, r)
    else none

/-- Encoding of a `CommandDetails`, field by field in declaration order. -/
def encDetails (d : CommandDetails) : List Char :=
  encCommandType d.command_type ++
    encOpt encStr d.command ++
    encOpt encStr d.params ++
    encOpt (encList (encPair encStr encStr)) d.env ++
    encOpt encBool d.allow_multiple_instances ++
    encOpt encStr d.working_directory ++
    encOpt encStr d.pre_command

/-- Decoder for `encDetails`. -/
def decDetails (l : List Char) : Option (CommandDetails × List Char) :=
  match decCommandType l with
  | none => none
  | some (ct, l1) =>
    match decOpt decStr l1 with
    | none => none
    | some (cmd, l2) =>
      match decOpt decStr l2 with
      | none => none
      | some (ps, l3) =>
        match decOpt (decList (decPair decStr decStr)) l3 with
        | none => none
        | some (ev, l4) =>
          match decOpt decBool l4 with
          | none => none
          | some (am, l5) =>
            match decOpt decStr l5 with
            | none => none
            | some (wd, l6) =>
              match decOpt decStr l6 with
              | none => none
              | some (pc, l7) =>
                some ({ command_type := ct, command := cmd, params := ps,
                        env := ev, allow_multiple_instances := am,
                        working_directory := wd, pre_command := pc }, l7)

/-- Encoding of a `CommandConfig`. -/
def encCommandConfig (c : CommandConfig) : List Char :=
  encStr c.default ++ encList (encPair encStr encDetails) c.configs

/-- Decoder for `encCommandConfig`. -/
def decCommandConfig (l : List Char) : Option (CommandConfig × List Char) :=
  match decStr l with
  | none => none
  | some (d, l1) =>
    match decList (decPair decStr decDetails) l1 with
    | none => none
    | some (cfgs, l2) => some ({ default := d, configs := cfgs }, l2)

/-- Encoding of a `Commands`, slot by slot. -/
def encCommands (cs : Commands) : List Char :=
  encOpt encCommandConfig cs.run ++
    encOpt encCommandConfig cs.test ++
    encOpt encCommandConfig cs.build ++
    encOpt encCommandConfig cs.bench ++
    encOpt encCommandConfig cs.script

/-- Decoder for `encCommands`. -/
def decCommands (l : List Char) : Option (Commands × List Char) :=
  match decOpt decCommandConfig l with
  | none => none
  | some (r, l1) =>
    match decOpt decCommandConfig l1 with
    | none => none
    | some (t, l2) =>
      match decOpt decCommandConfig l2 with
      | none => none
      | some (b, l3) =>
        match decOpt decCommandConfig l3 with
        | none => none
        | some (bn, l4) =>
          match decOpt decCommandConfig l4 with
          | none => none
          | some (s, l5) =>
            some ({ run := r, test := t, build := b, bench := bn,
                    script := s }, l5)

/-- Text produced for a whole `Config` (always ends with a newline, as a
text file would). -/
def encodeConfig (c : Config) : List Char :=
  encCommands c.commands ++ ['\n']

/-- Whole-text parse of a `Config`: the text must be exactly one encoded
`Commands` followed by the final newline. -/
def parseConfig (l : List Char) : Option Config :=
  match decCommands l with
  | some (cs, ['\n']) => some { commands := cs }
  | _ => none

/-! ### File and buffer model

`helper.rs` reads a file line by line, appending each line plus `"\n"` to a
process-wide string buffer; `Config::load` then parses the whole buffer.  A
file on disk is modelled as its list of lines. -/

/-- Split text into its lines, the way `BufReader::lines` yields them (no
trailing empty line when the text ends with a newline). -/
def splitLines : List Char → List (List Char)
  | [] => []
  | c :: t =>
    if c = '\n' then [] :: splitLines t
    else
      match splitLines t with
      | [] => [[c]]
      | h :: r => (c :: h) :: r

/-- Concatenate lines, each followed by a newline: the buffer contents
produced by repeating `append_new_line` over the lines. -/
def joinLines : List (List Char) → List Char
  | [] => []
  | l :: ls => l ++ '\n' :: joinLines ls

/-- Modelled from the spec: `write_to_config_file` is not among the sources;
per the source comment in `Config::save`, the serialized string is written to
the file line by line. -/
def writeConfigFile (text : List Char) : List (List Char) :=
  splitLines text

/-- Embeds `helper::read_file` with `append_new_line`: each line of the file
is appended to the buffer, followed by a newline. -/
def readFileInto (buffer : List Char) (file : List (List Char)) : List Char :=
  buffer ++ joinLines file

/-- Embeds `Config::save` (with the serialization collaborator modelled from
the spec): the file afterwards holds the serialized text. -/
def save (c : Config) : List (List Char) :=
  writeConfigFile (encodeConfig c)

/-- Embeds the parse-or-default step of `Config::load`:
`toml::from_str(&file_content).unwrap_or(Config::default())`. -/
def loadBuffer (buffer : List Char) : Config :=
  match parseConfig buffer with
  | some c => c
  | none => defaultConfig

/-- Embeds `Config::load` over an optional file at the requested path: a
missing/unreadable file propagates as an I/O error (`none`); otherwise the
file's lines are appended to the buffer and the whole buffer is parsed,
parse failure falling back to the built-in defaults. -/
def load (file : Option (List (List Char))) (buffer : List Char) :
    Option Config :=
  match file with
  | none => none
  | some lines => some (loadBuffer (readFileInto buffer lines))

/-! ### Codec round-trip lemmas -/

theorem decNat_encNat (n : Nat) (rest : List Char) :
    decNat (encNat n ++ rest) = some (n, rest) := by
  induction n with
  | zero => simp [encNat, decNat]
  | succ m ih => simp [encNat, decNat, ih]

theorem decBool_encBool (b : Bool) (rest : List Char) :
    decBool (encBool b ++ rest) = some (b, rest) := by
  cases b <;> simp [encBool, decBool]

theorem decChars_encChars (s rest : List Char) :
    decChars (encChars s ++ rest) = some (s, rest) := by
  simp [encChars, decChars, List.append_assoc, decNat_encNat,
    List.take_left, List.drop_left, Nat.le_add_right]

theorem decStr_encStr (s : String) (rest : List Char) :
    decStr (encStr s ++ rest) = some (s, rest) := by
  obtain ⟨d⟩ := s
  simp [encStr, decStr, decChars_encChars]

theorem decOpt_encOpt {α : Type} (f : α → List Char)
    (g : List Char → Option (α × List Char))
    (h : ∀ x rest, g (f x ++ rest) = some (x, rest)) (o : Option α)
    (rest : List Char) : decOpt g (encOpt f o ++ rest) = some (o, rest) := by
  cases o with
  | none => simp [encOpt, decOpt]
  | some x => simp [encOpt, decOpt, h]

theorem decPair_encPair {α β : Type} (f₁ : α → List Char)
    (g₁ : List Char → Option (α × List Char)) (f₂ : β → List Char)
    (g₂ : List Char → Option (β × List Char))
    (h₁ : ∀ x rest, g₁ (f₁ x ++ rest) = some (x, rest))
    (h₂ : ∀ x rest, g₂ (f₂ x ++ rest) = some (x, rest)) (p : α × β)
    (rest : List Char) :
    decPair g₁ g₂ (encPair f₁ f₂ p ++ rest) = some (p, rest) := by
  obtain ⟨a, b⟩ := p
  simp [encPair, decPair, List.append_assoc, h₁, h₂]

theorem decListAux_enc {α : Type} (f : α → List Char)
    (g : List Char → Option (α × List Char))
    (h : ∀ x rest, g (f x ++ rest) = some (x, rest)) (l : List α)
    (rest : List Char) :
    decListAux g l.length ((l.map f).flatten ++ rest) = some (l, rest) := by
  induction l generalizing rest with
  | nil => simp [decListAux]
  | cons x t ih => simp [decListAux, List.append_assoc, h, ih]

theorem decList_encList {α : Type} (f : α → List Char)
    (g : List Char → Option (α × List Char))
    (h : ∀ x rest, g (f x ++ rest) = some (x, rest)) (l : List α)
    (rest : List Char) :
    decList g (encList f l ++ rest) = some (l, rest) := by
  simp [encList, decList, List.append_assoc, decNat_encNat, decListAux_enc f g h]

theorem decCommandType_encCommandType (ct : CommandType) (rest : List Char) :
    decCommandType (encCommandType ct ++ rest) = some (ct, rest) := by
  cases ct <;> simp [encCommandType, decCommandType]

theorem decDetails_encDetails (d : CommandDetails) (rest : List Char) :
    decDetails (encDetails d ++ rest) = some (d, rest) := by
  simp [encDetails, decDetails, List.append_assoc,
    decCommandType_encCommandType,
    decOpt_encOpt encStr decStr decStr_encStr,
    decOpt_encOpt encBool decBool decBool_encBool,
    decOpt_encOpt (encList (encPair encStr encStr))
      (decList (decPair decStr decStr))
      (decList_encList (encPair encStr encStr) (decPair decStr decStr)
        (decPair_encPair encStr decStr encStr decStr decStr_encStr
          decStr_encStr))]

theorem decCommandConfig_encCommandConfig (c : CommandConfig)
    (rest : List Char) :
    decCommandConfig (encCommandConfig c ++ rest) = some (c, rest) := by
  simp [encCommandConfig, decCommandConfig, List.append_assoc, decStr_encStr,
    decList_encList (encPair encStr encDetails) (decPair decStr decDetails)
      (decPair_encPair encStr decStr encDetails decDetails decStr_encStr
        decDetails_encDetails)]

theorem decCommands_encCommands (cs : Commands) (rest : List Char) :
    decCommands (encCommands cs ++ rest) = some (cs, rest) := by
  simp [encCommands, decCommands, List.append_assoc,
    decOpt_encOpt encCommandConfig decCommandConfig
      decCommandConfig_encCommandConfig]

theorem parseConfig_encodeConfig (c : Config) :
    parseConfig (encodeConfig c) = some c := by
  obtain ⟨cs⟩ := c
  simp [encodeConfig, parseConfig, decCommands_encCommands]

/-! ### Line splitting round trip -/

theorem splitLines_cons_ne_nil (c : Char) (t : List Char) :
    splitLines (c :: t) ≠ [] := by
  by_cases hc : c = '\n'
  · simp [splitLines, hc]
  · simp only [splitLines, if_neg hc]
    cases h : splitLines t <;> simp

theorem joinLines_splitLines (l : List Char) :
    joinLines (splitLines (l ++ ['\n'])) = l ++ ['\n'] := by
  induction l with
  | nil => rfl
  | cons c t ih =>
    by_cases hc : c = '\n'
    · subst hc
      simp only [List.cons_append, splitLines, if_pos rfl, joinLines,
        List.append_eq]
      rw [ih]
      simp
    · simp only [List.cons_append, splitLines, if_neg hc]
      rcases hsp : splitLines (t ++ ['\n']) with _ | ⟨h, r⟩
      · exact absurd hsp (by
          cases t with
          | nil => exact splitLines_cons_ne_nil _ _
          | cons a t' => exact splitLines_cons_ne_nil _ _)
      · have hj : joinLines (h :: r) = t ++ ['\n'] := by rw [← hsp]; exact ih
        simp only [joinLines] at hj ⊢
        simp [hj]

/-! ### Association-list lemmas -/

theorem alookup_aremove_self {α : Type} (l : List (String × α)) (k : String) :
    alookup (aremove l k) k = none := by
  induction l with
  | nil => rfl
  | cons p t ih =>
    obtain ⟨k', v⟩ := p
    by_cases h : k' = k
    · simpa [aremove, h] using ih
    · simp [aremove, alookup, h, ih]

theorem alookup_aremove_ne {α : Type} (l : List (String × α)) (k k' : String)
    (h : k' ≠ k) : alookup (aremove l k) k' = alookup l k' := by
  induction l with
  | nil => rfl
  | cons p t ih =>
    obtain ⟨k₀, v⟩ := p
    by_cases h0 : k₀ = k
    · subst h0
      simp [aremove, alookup, Ne.symm h, ih]
    · by_cases h1 : k₀ = k'
      · subst h1
        simp [aremove, alookup, h0, h]
      · simp [aremove, alookup, h0, h1, ih]

theorem alookup_aupdate_self {α : Type} (l : List (String × α)) (k : String)
    (f : α → α) (v : α) (h : alookup l k = some v) :
    alookup (aupdate l k f) k = some (f v) := by
  induction l with
  | nil => simp [alookup] at h
  | cons p t ih =>
    obtain ⟨k₀, v₀⟩ := p
    by_cases h0 : k₀ = k
    · simp [alookup, h0] at h
      simp [aupdate, alookup, h0, h]
    · simp [alookup, h0] at h
      simp [aupdate, alookup, h0, ih h]

theorem containsKey_isSome {α : Type} (l : List (String × α)) (k : String) :
    containsKey l k = (alookup l k).isSome := by
  induction l with
  | nil => rfl
  | cons p t ih =>
    obtain ⟨k₀, v₀⟩ := p
    by_cases h0 : k₀ = k <;> simp [containsKey, alookup, h0, ih]

theorem getSlot_setSlot_self (cs : Commands) (ctx : CommandContext)
    (v : Option CommandConfig) : getSlot (setSlot cs ctx v) ctx = v := by
  cases ctx <;> rfl

theorem getSlot_setSlot_ne (cs : Commands) (ctx ctx' : CommandContext)
    (v : Option CommandConfig) (h : ctx' ≠ ctx) :
    getSlot (setSlot cs ctx v) ctx' = getSlot cs ctx' := by
  cases ctx <;> cases ctx' <;> first
    | exact absurd rfl h
    | rfl

/-! ### Claim theorems -/

/-- C4: `remove_config` is total (no error path, by its type); removing key
`K` deletes exactly the binding of `K`; the default pointer is reset to the
literal `"default"` when `K` was the default, and is untouched otherwise; the
binding of every other key is unchanged. -/
theorem C4_remove_config (cfg : CommandConfig) (K : String) :
    (cfg.remove_config K).default =
      (if cfg.default = K then "default" else cfg.default) ∧
    alookup (cfg.remove_config K).configs K = none ∧
    ∀ k', k' ≠ K →
      alookup (cfg.remove_config K).configs k' = alookup cfg.configs k' := by
  by_cases hd : cfg.default = K
  · exact ⟨by simp [CommandConfig.remove_config, hd],
      by simp [CommandConfig.remove_config, hd, alookup_aremove_self],
      fun k' hk' => by
        simp [CommandConfig.remove_config, hd, alookup_aremove_ne _ _ _ hk']⟩
  · exact ⟨by simp [CommandConfig.remove_config, hd],
      by simp [CommandConfig.remove_config, hd, alookup_aremove_self],
      fun k' hk' => by
        simp [CommandConfig.remove_config, hd, alookup_aremove_ne _ _ _ hk']⟩

/-- Witness for C4 at the seeded `run` set, removing the current default. -/
theorem C4_remove_config_witness :
    ((CommandConfig.with_context "run").remove_config "default").default =
      "default" ∧
    alookup ((CommandConfig.with_context "run").remove_config "default").configs
      "default" = none ∧
    alookup ((CommandConfig.with_context "run").remove_config "default").configs
      "x" = alookup (CommandConfig.with_context "run").configs "x" := by
  obtain ⟨h1, h2, h3⟩ := C4_remove_config (CommandConfig.with_context "run") "default"
  exact ⟨by simpa using h1, h2, h3 "x" (by decide)⟩

/-- C8: for every non-empty key `K` and every starting set — whether or not
`K` is present — `update_pre_command K K` fails with the self-reference
`InvalidPreCommand` error and leaves the set unchanged; since this is the
result even when `K` is absent (where the existence/lookup path would give
`ConfigKeyNotFound`), the self-reference check precedes the emptiness and
existence checks. -/
theorem C8_self_pre_command (cfg : CommandConfig) (K : String) (_h : K ≠ "") :
    cfg.update_pre_command K K =
      (Except.error (ConfigError.InvalidPreCommand
        ("Cannot set pre_command to its own key: " ++ K)), cfg) := by
  simp [CommandConfig.update_pre_command]

/-- Witness for C8 on the empty set, where `"a"` does not exist. -/
theorem C8_self_pre_command_witness :
    defaultCommandConfig.update_pre_command "a" "a" =
      (Except.error (ConfigError.InvalidPreCommand
        ("Cannot set pre_command to its own key: " ++ "a")),
        defaultCommandConfig) :=
  C8_self_pre_command defaultCommandConfig "a" (by decide)

/-- C9 counterexample: with an existing empty-string key, clearing via
`update_pre_command "" ""` does not succeed — the self-reference check fires
first and the call fails with `InvalidPreCommand`, refuting the claim for the
empty-string key. -/
theorem C9_empty_key_counterexample :
    containsKey
      ({ default := "default",
         configs := [("", CommandConfig.default_command_details ""
           CommandType.Shell)] } : CommandConfig).configs "" = true ∧
    (CommandConfig.update_pre_command
      { default := "default",
        configs := [("", CommandConfig.default_command_details ""
          CommandType.Shell)] } "" "").1 =
      Except.error (ConfigError.InvalidPreCommand
        ("Cannot set pre_command to its own key: " ++ "")) :=
  ⟨rfl, rfl⟩

/-- C9 (amended): for every existing NON-EMPTY key `K`,
`update_pre_command K ""` succeeds and the stored variant's `pre_command`
afterwards is absent; for the empty-string key the call instead fails
(see the counterexample). -/
theorem C9_clear_pre_command (cfg : CommandConfig) (K : String)
    (d : CommandDetails) (hK : K ≠ "") (hmem : alookup cfg.configs K = some d) :
    cfg.update_pre_command K "" =
      (Except.ok (), { cfg with
        configs := aupdate cfg.configs K
          (fun x => { x with pre_command := none }) }) ∧
    alookup (cfg.update_pre_command K "").2.configs K =
      some { d with pre_command := none } := by
  have h1 : ("" : String) ≠ K := fun he => hK he.symm
  constructor
  · simp [CommandConfig.update_pre_command, h1,
      CommandConfig.update_command_details, hmem]
  · simp [CommandConfig.update_pre_command, h1,
      CommandConfig.update_command_details, hmem,
      alookup_aupdate_self cfg.configs K _ d hmem]

/-- Witness for C9 (amended) at the seeded `run` set. -/
theorem C9_clear_pre_command_witness :
    ((CommandConfig.with_context "run").update_pre_command "default" "").1 =
      Except.ok () ∧
    alookup ((CommandConfig.with_context "run").update_pre_command
        "default" "").2.configs "default" =
      some { CommandConfig.default_command_details
          "run --package ${packageName} --bin ${binaryName}"
          CommandType.Cargo with pre_command := none } := by
  obtain ⟨h1, h2⟩ := C9_clear_pre_command (CommandConfig.with_context "run")
    "default"
    (CommandConfig.default_command_details
      "run --package ${packageName} --bin ${binaryName}" CommandType.Cargo)
    (by decide) rfl
  exact ⟨by rw [h1], h2⟩

/-- C10: `get_or_insert_command_config` on an absent slot inserts the
`Default` `CommandConfig` — default pointer `"default"`, empty variants
mapping, so the pointer names no existing variant — and returns it, touching
no other slot; on a present slot it returns the stored set and leaves the
root unchanged. -/
theorem C10_get_or_insert (cs : Commands) (ctx : CommandContext) :
    (getSlot cs ctx = none →
      Commands.get_or_insert_command_config cs ctx =
        (defaultCommandConfig, setSlot cs ctx (some defaultCommandConfig)) ∧
      defaultCommandConfig.default = "default" ∧
      defaultCommandConfig.configs = [] ∧
      alookup defaultCommandConfig.configs "default" = none ∧
      getSlot (setSlot cs ctx (some defaultCommandConfig)) ctx =
        some defaultCommandConfig ∧
      (∀ ctx', ctx' ≠ ctx →
        getSlot (setSlot cs ctx (some defaultCommandConfig)) ctx' =
          getSlot cs ctx')) ∧
    (∀ c, getSlot cs ctx = some c →
      Commands.get_or_insert_command_config cs ctx = (c, cs)) := by
  constructor
  · intro h
    refine ⟨?_, rfl, rfl, rfl, getSlot_setSlot_self cs ctx _,
      fun ctx' hne => getSlot_setSlot_ne cs ctx ctx' _ hne⟩
    cases ctx <;> simp_all [Commands.get_or_insert_command_config, getSlot,
      setSlot]
  · intro c h
    cases ctx <;> simp_all [Commands.get_or_insert_command_config, getSlot]

/-- Witness for C10: the built-in default root has an empty `script` slot
(insertion case) and a seeded `run` slot (no-change case). -/
theorem C10_get_or_insert_witness :
    Commands.get_or_insert_command_config defaultCommands
        CommandContext.Script =
      (defaultCommandConfig,
        setSlot defaultCommands CommandContext.Script
          (some defaultCommandConfig)) ∧
    Commands.get_or_insert_command_config defaultCommands CommandContext.Run =
      (CommandConfig.with_context "run", defaultCommands) :=
  ⟨((C10_get_or_insert defaultCommands CommandContext.Script).1 rfl).1,
   (C10_get_or_insert defaultCommands CommandContext.Run).2 _ rfl⟩

/-- C1 counterexample: `"a"` is absent from the empty set, yet
`update_pre_command "a" "a"` returns `InvalidPreCommand`, not
`ConfigKeyNotFound("a")` — the self-reference check precedes the lookup. -/
theorem C1_missing_key_counterexample :
    alookup defaultCommandConfig.configs "a" = none ∧
    (defaultCommandConfig.update_pre_command "a" "a").1 =
      Except.error (ConfigError.InvalidPreCommand
        ("Cannot set pre_command to its own key: " ++ "a")) ∧
    (defaultCommandConfig.update_pre_command "a" "a").1 ≠
      Except.error (ConfigError.ConfigKeyNotFound "a") := by
  refine ⟨rfl, rfl, ?_⟩
  intro h
  simp [CommandConfig.update_pre_command] at h

/-- C1 (amended): for a key `K` absent from the set, the five plain field
updates return `ConfigKeyNotFound(K)` for every new value; `update_pre_command`
returns `ConfigKeyNotFound(K)` exactly when the new value differs from `K` and
is either empty or an existing key of the set, and otherwise fails with
`InvalidPreCommand`. -/
theorem C1_missing_key (cfg : CommandConfig) (K : String)
    (hK : alookup cfg.configs K = none) :
    (∀ v, (cfg.update_command K v).1 =
      Except.error (ConfigError.ConfigKeyNotFound K)) ∧
    (∀ v, (cfg.update_params K v).1 =
      Except.error (ConfigError.ConfigKeyNotFound K)) ∧
    (∀ v, (cfg.update_working_directory K v).1 =
      Except.error (ConfigError.ConfigKeyNotFound K)) ∧
    (∀ b, (cfg.update_allow_multiple_instances K b).1 =
      Except.error (ConfigError.ConfigKeyNotFound K)) ∧
    (∀ ct, (cfg.update_command_type K ct).1 =
      Except.error (ConfigError.ConfigKeyNotFound K)) ∧
    (∀ v, v ≠ K → (v = "" ∨ containsKey cfg.configs v = true) →
      (cfg.update_pre_command K v).1 =
        Except.error (ConfigError.ConfigKeyNotFound K)) ∧
    (∀ v, v = K ∨ (v ≠ "" ∧ containsKey cfg.configs v = false) →
      ∃ msg, (cfg.update_pre_command K v).1 =
        Except.error (ConfigError.InvalidPreCommand msg)) := by
  refine ⟨fun v => ?_, fun v => ?_, fun v => ?_, fun b => ?_, fun ct => ?_,
    fun v hvK hv => ?_, fun v hv => ?_⟩
  · simp [CommandConfig.update_command, CommandConfig.update_command_details, hK]
  · simp [CommandConfig.update_params, CommandConfig.update_command_details, hK]
  · simp [CommandConfig.update_working_directory,
      CommandConfig.update_command_details, hK]
  · simp [CommandConfig.update_allow_multiple_instances,
      CommandConfig.update_command_details, hK]
  · simp [CommandConfig.update_command_type,
      CommandConfig.update_command_details, hK]
  · by_cases hv0 : v = ""
    · have h0K : ¬("" : String) = K := hv0 ▸ hvK
      simp [CommandConfig.update_pre_command, hvK, hv0, h0K,
        CommandConfig.update_command_details, hK]
    · have hcv : containsKey cfg.configs v = true := by
        rcases hv with hv | hv
        · exact absurd hv hv0
        · exact hv
      simp [CommandConfig.update_pre_command, hvK, hv0, hcv,
        CommandConfig.update_command_details, hK]
  · rcases hv with hv | ⟨hv0, hcv⟩
    · exact ⟨"Cannot set pre_command to its own key: " ++ K, by
        simp [CommandConfig.update_pre_command, hv]⟩
    · by_cases hvK : v = K
      · exact ⟨"Cannot set pre_command to its own key: " ++ K, by
          simp [CommandConfig.update_pre_command, hvK]⟩
      · exact ⟨"pre_command '" ++ v ++ "' does not exist as a command key", by
          simp [CommandConfig.update_pre_command, hvK, hv0, hcv]⟩

/-- Witness for C1 (amended) on the empty set with the absent key `"a"`. -/
theorem C1_missing_key_witness :
    (defaultCommandConfig.update_command "a" "x").1 =
      Except.error (ConfigError.ConfigKeyNotFound "a") ∧
    (defaultCommandConfig.update_pre_command "a" "").1 =
      Except.error (ConfigError.ConfigKeyNotFound "a") := by
  obtain ⟨h1, _, _, _, _, h6, _⟩ := C1_missing_key defaultCommandConfig "a" rfl
  exact ⟨h1 "x", h6 "" (by decide) (Or.inl rfl)⟩

/-- C2 counterexample: `"default"` is an existing key of the seeded `run`
set — so by the claim `update_pre_command "default" "default"` should
succeed — yet the call fails with `InvalidPreCommand` (self-reference). -/
theorem C2_self_key_counterexample :
    containsKey (CommandConfig.with_context "run").configs "default" = true ∧
    ((CommandConfig.with_context "run").update_pre_command "default"
        "default").1 =
      Except.error (ConfigError.InvalidPreCommand
        ("Cannot set pre_command to its own key: " ++ "default")) :=
  ⟨by decide, rfl⟩

/-- C2 (amended): for an existing key `K`, `update_pre_command K other` fails
with `InvalidPreCommand` iff `other = K`, or `other` is non-empty and not a
key of the set; in every other case it succeeds, and the variant afterwards
records `other` (cleared to absent when `other` is empty). -/
theorem C2_set_pre_command (cfg : CommandConfig) (K other : String)
    (d : CommandDetails) (hmem : alookup cfg.configs K = some d) :
    ((∃ msg, (cfg.update_pre_command K other).1 =
        Except.error (ConfigError.InvalidPreCommand msg)) ↔
      (other = K ∨ (other ≠ "" ∧ containsKey cfg.configs other = false))) ∧
    (other ≠ K → other = "" →
      (cfg.update_pre_command K other).1 = Except.ok () ∧
      alookup (cfg.update_pre_command K other).2.configs K =
        some { d with pre_command := none }) ∧
    (other ≠ K → other ≠ "" → containsKey cfg.configs other = true →
      (cfg.update_pre_command K other).1 = Except.ok () ∧
      alookup (cfg.update_pre_command K other).2.configs K =
        some { d with pre_command := some other }) := by
  by_cases h1 : other = K
  · refine ⟨⟨fun _ => Or.inl h1, fun _ =>
      ⟨"Cannot set pre_command to its own key: " ++ K, by
        simp [CommandConfig.update_pre_command, h1]⟩⟩,
      fun hne _ => absurd h1 hne, fun hne _ _ => absurd h1 hne⟩
  · by_cases h2 : other = ""
    · have hok : (cfg.update_pre_command K other).1 = Except.ok () ∧
          alookup (cfg.update_pre_command K other).2.configs K =
            some { d with pre_command := none } := by
        have h0K : ¬("" : String) = K := h2 ▸ h1
        constructor
        · simp [CommandConfig.update_pre_command, h1, h2, h0K,
            CommandConfig.update_command_details, hmem]
        · simp [CommandConfig.update_pre_command, h1, h2, h0K,
            CommandConfig.update_command_details, hmem,
            alookup_aupdate_self cfg.configs K _ d hmem]
      refine ⟨⟨fun ⟨msg, hmsg⟩ => ?_, fun h => ?_⟩,
        fun _ _ => hok, fun _ hne2 _ => absurd h2 hne2⟩
      · rw [hok.1] at hmsg
        exact absurd hmsg (by simp)
      · rcases h with h | ⟨hne2, _⟩
        · exact absurd h h1
        · exact absurd h2 hne2
    · by_cases h3 : containsKey cfg.configs other = true
      · have hok : (cfg.update_pre_command K other).1 = Except.ok () ∧
            alookup (cfg.update_pre_command K other).2.configs K =
              some { d with pre_command := some other } := by
          constructor
          · simp [CommandConfig.update_pre_command, h1, h2, h3,
              CommandConfig.update_command_details, hmem]
          · simp [CommandConfig.update_pre_command, h1, h2, h3,
              CommandConfig.update_command_details, hmem,
              alookup_aupdate_self cfg.configs K _ d hmem]
        refine ⟨⟨fun ⟨msg, hmsg⟩ => ?_, fun h => ?_⟩,
          fun _ h2' => absurd h2' h2, fun _ _ _ => hok⟩
        · rw [hok.1] at hmsg
          exact absurd hmsg (by simp)
        · rcases h with h | ⟨_, hc⟩
          · exact absurd h h1
          · rw [h3] at hc
            exact absurd hc (by simp)
      · have h3' : containsKey cfg.configs other = false :=
          Bool.not_eq_true _ ▸ eq_false_of_ne_true h3
        refine ⟨⟨fun _ => Or.inr ⟨h2, h3'⟩, fun _ =>
          ⟨"pre_command '" ++ other ++ "' does not exist as a command key", by
            simp [CommandConfig.update_pre_command, h1, h2, h3']⟩⟩,
          fun _ h2' => absurd h2' h2, fun _ _ hc => absurd hc h3⟩

/-- Witness for C2 (amended): on a `run` set with keys `"default"` and
`"fast"`, linking `"default"` to `"fast"` succeeds and records the link. -/
theorem C2_set_pre_command_witness :
    (((CommandConfig.with_context "run").update_config "fast"
        (CommandConfig.default_command_details "x" CommandType.Shell)
      ).update_pre_command "default" "fast").1 = Except.ok () ∧
    alookup (((CommandConfig.with_context "run").update_config "fast"
        (CommandConfig.default_command_details "x" CommandType.Shell)
      ).update_pre_command "default" "fast").2.configs "default" =
      some { CommandConfig.default_command_details
          "run --package ${packageName} --bin ${binaryName}"
          CommandType.Cargo with pre_command := some "fast" } := by
  have h := C2_set_pre_command
    ((CommandConfig.with_context "run").update_config "fast"
      (CommandConfig.default_command_details "x" CommandType.Shell))
    "default" "fast"
    (CommandConfig.default_command_details
      "run --package ${packageName} --bin ${binaryName}" CommandType.Cargo)
    rfl
  exact h.2.2 (by decide) (by decide) (by decide)

/-- C3 counterexample: the variant seeded for `"run"` does not have an absent
`pre_command` — the field is present, holding the empty string. -/
theorem C3_seed_pre_command_counterexample :
    (alookup (CommandConfig.with_context "run").configs "default").map
      CommandDetails.pre_command ≠ some none := by
  intro h
  simp [CommandConfig.with_context, CommandConfig.default_command_details,
    alookup] at h

/-- C3 (amended): `with_context` is total over context names and seeds one
variant named `"default"`: for `"run"` a Cargo variant with the templated run
command; for `"test"`/`"build"`/`"bench"` Cargo variants with those literal
commands; for every other name a Shell variant with the empty command.  Every
seeded variant has `params = some ""`, `allow_multiple_instances = some
false`, `working_directory = some "${workspaceFolder}"`, `env = some []`,
and `pre_command` PRESENT as the empty string (`some ""`), not absent. -/
theorem C3_seeding :
    CommandConfig.with_context "run" =
      { default := "default",
        configs := [("default", CommandConfig.default_command_details
          "run --package ${packageName} --bin ${binaryName}"
          CommandType.Cargo)] } ∧
    CommandConfig.with_context "test" =
      { default := "default",
        configs := [("default", CommandConfig.default_command_details "test"
          CommandType.Cargo)] } ∧
    CommandConfig.with_context "build" =
      { default := "default",
        configs := [("default", CommandConfig.default_command_details "build"
          CommandType.Cargo)] } ∧
    CommandConfig.with_context "bench" =
      { default := "default",
        configs := [("default", CommandConfig.default_command_details "bench"
          CommandType.Cargo)] } ∧
    (∀ s, s ≠ "run" → s ≠ "test" → s ≠ "build" → s ≠ "bench" →
      CommandConfig.with_context s =
        { default := "default",
          configs := [("default", CommandConfig.default_command_details ""
            CommandType.Shell)] }) ∧
    (∀ cmd ct,
      (CommandConfig.default_command_details cmd ct).command_type = ct ∧
      (CommandConfig.default_command_details cmd ct).command = some cmd ∧
      (CommandConfig.default_command_details cmd ct).params = some "" ∧
      (CommandConfig.default_command_details cmd ct).allow_multiple_instances =
        some false ∧
      (CommandConfig.default_command_details cmd ct).working_directory =
        some "${workspaceFolder}" ∧
      (CommandConfig.default_command_details cmd ct).env = some [] ∧
      (CommandConfig.default_command_details cmd ct).pre_command = some "") := by
  refine ⟨rfl, rfl, rfl, rfl, fun s h1 h2 h3 h4 => ?_,
    fun cmd ct => ⟨rfl, rfl, rfl, rfl, rfl, rfl, rfl⟩⟩
  simp [CommandConfig.with_context, h1, h2, h3, h4]

/-- Witness for C3 (amended) at the unrecognized context name `"script"`. -/
theorem C3_seeding_witness :
    CommandConfig.with_context "script" =
      { default := "default",
        configs := [("default", CommandConfig.default_command_details ""
          CommandType.Shell)] } :=
  C3_seeding.2.2.2.2.1 "script" (by decide) (by decide) (by decide) (by decide)

/-- C5: `save` followed by `load` from the same path, starting from an empty
in-process buffer, reproduces the configuration root exactly — serializing a
root to text and parsing that text back yields a structurally equal root. -/
theorem C5_save_load_roundtrip (c : Config) :
    load (some (save c)) [] = some c := by
  have h1 : readFileInto [] (save c) = encodeConfig c := by
    simp only [readFileInto, save, writeConfigFile, encodeConfig,
      List.nil_append]
    exact joinLines_splitLines (encCommands c.commands)
  simp [load, loadBuffer, h1, parseConfig_encodeConfig]

/-- C6: when the file is readable but its text fails to parse, `load` returns
(without error) the built-in default root: seeded `run`/`test`/`build`/`bench`
slots, each holding exactly one variant named `"default"` with the default
pointer `"default"`, and an empty `script` slot. -/
theorem C6_fail_open (lines : List (List Char)) (buffer : List Char)
    (hparse : parseConfig (readFileInto buffer lines) = none) :
    load (some lines) buffer = some defaultConfig ∧
    defaultConfig.commands.run = some (CommandConfig.with_context "run") ∧
    defaultConfig.commands.test = some (CommandConfig.with_context "test") ∧
    defaultConfig.commands.build = some (CommandConfig.with_context "build") ∧
    defaultConfig.commands.bench = some (CommandConfig.with_context "bench") ∧
    defaultConfig.commands.script = none ∧
    (∀ s, (CommandConfig.with_context s).default = "default" ∧
      ∃ d, (CommandConfig.with_context s).configs = [("default", d)]) := by
  exact ⟨by simp [load, loadBuffer, hparse], rfl, rfl, rfl, rfl, rfl,
    fun s => ⟨rfl, ⟨_, rfl⟩⟩⟩

/-- Witness for C6 at the unparseable one-line file `"g"`. -/
theorem C6_fail_open_witness :
    load (some [['g']]) [] = some defaultConfig :=
  (C6_fail_open [['g']] [] rfl).1

/-- A fallible field update leaves the set unchanged whenever it errors. -/
theorem update_details_error_unchanged (cfg : CommandConfig) (k : String)
    (f : CommandDetails → CommandDetails) (e : ConfigError)
    (h : (cfg.update_command_details k f).1 = Except.error e) :
    (cfg.update_command_details k f).2 = cfg := by
  unfold CommandConfig.update_command_details at h ⊢
  cases halo : alookup cfg.configs k with
  | some d => simp [halo] at h
  | none => simp [halo]

/-- `update_pre_command` leaves the set unchanged whenever it errors. -/
theorem update_pre_command_error_unchanged (cfg : CommandConfig)
    (k v : String) (e : ConfigError)
    (h : (cfg.update_pre_command k v).1 = Except.error e) :
    (cfg.update_pre_command k v).2 = cfg := by
  unfold CommandConfig.update_pre_command at h ⊢
  by_cases h1 : v = k
  · simp [h1]
  · by_cases h2 : v = ""
    · simp only [if_neg h1, if_pos h2] at h ⊢
      exact update_details_error_unchanged cfg k _ e h
    · by_cases h3 : containsKey cfg.configs v = false
      · simp [h1, h2, h3]
      · simp only [if_neg h1, if_neg h2, if_neg h3] at h ⊢
        exact update_details_error_unchanged cfg k _ e h

/-- C7: every fallible mutation is atomic with respect to failure: whenever
`setDefault`, one of the five plain field updates, or `setPreCommand` returns
an error, the structure afterwards equals the structure before the call. -/
theorem C7_atomic_mutations :
    (∀ (cfg : CommandConfig) (k v : String) (e : ConfigError),
      (cfg.update_command k v).1 = Except.error e →
      (cfg.update_command k v).2 = cfg) ∧
    (∀ (cfg : CommandConfig) (k v : String) (e : ConfigError),
      (cfg.update_params k v).1 = Except.error e →
      (cfg.update_params k v).2 = cfg) ∧
    (∀ (cfg : CommandConfig) (k v : String) (e : ConfigError),
      (cfg.update_working_directory k v).1 = Except.error e →
      (cfg.update_working_directory k v).2 = cfg) ∧
    (∀ (cfg : CommandConfig) (k : String) (b : Bool) (e : ConfigError),
      (cfg.update_allow_multiple_instances k b).1 = Except.error e →
      (cfg.update_allow_multiple_instances k b).2 = cfg) ∧
    (∀ (cfg : CommandConfig) (k : String) (ct : CommandType) (e : ConfigError),
      (cfg.update_command_type k ct).1 = Except.error e →
      (cfg.update_command_type k ct).2 = cfg) ∧
    (∀ (cfg : CommandConfig) (k v : String) (e : ConfigError),
      (cfg.update_pre_command k v).1 = Except.error e →
      (cfg.update_pre_command k v).2 = cfg) ∧
    (∀ (cs : Commands) (ctx : CommandContext) (k : String) (e : ConfigError),
      (Commands.set_default_config cs ctx k).1 = Except.error e →
      (Commands.set_default_config cs ctx k).2 = cs) := by
  refine ⟨fun cfg k v e h => update_details_error_unchanged cfg k _ e h,
    fun cfg k v e h => update_details_error_unchanged cfg k _ e h,
    fun cfg k v e h => update_details_error_unchanged cfg k _ e h,
    fun cfg k b e h => update_details_error_unchanged cfg k _ e h,
    fun cfg k ct e h => update_details_error_unchanged cfg k _ e h,
    fun cfg k v e h => update_pre_command_error_unchanged cfg k v e h,
    fun cs ctx k e h => ?_⟩
  unfold Commands.set_default_config at h ⊢
  cases hs : getSlot cs ctx with
  | none => simp [hs]
  | some cfg =>
    by_cases hc : containsKey cfg.configs k
    · simp [hs, hc] at h
    · simp [hs, hc]

/-- Witness for C7: an erroring plain update and an erroring `setDefault`
both leave their structure unchanged. -/
theorem C7_atomic_mutations_witness :
    (defaultCommandConfig.update_command "a" "x").2 = defaultCommandConfig ∧
    (Commands.set_default_config defaultCommands CommandContext.Script
      "a").2 = defaultCommands := by
  obtain ⟨h1, _, _, _, _, _, h7⟩ := C7_atomic_mutations
  exact ⟨h1 defaultCommandConfig "a" "x" (ConfigError.ConfigKeyNotFound "a")
      rfl,
    h7 defaultCommands CommandContext.Script "a"
      (ConfigError.ConfigKeyNotFound "a") rfl⟩

end Rx
